import Mathlib

/-!
A formal model of core components of the ZeroFS filesystem engine, together
with theorems checking the engine's specification against the code.

The model is a shallow embedding of the Rust sources:

* `src/zerofs/src/encryption.rs` — the encryption manager with per-chunk
  compression, and the encrypted KV store with its metadata key cache;
* `src/zerofs/src/fs/lock_manager.rs` — deadlock-free multi-lock acquisition;
* `src/zerofs/src/fs/constants.rs` — inode-id validation;
* `src/zerofs/src/fs/snapshot_manager.rs` — snapshot creation;
* `src/zerofs/src/fs/clone.rs` — deep directory clone;
* `src/zerofs/src/fs/dataset.rs`, `src/zerofs/src/fs/store/dataset.rs` —
  the dataset registry;
* `src/zerofs/src/fs/store/inode.rs`, `src/zerofs/src/metadata_cache.rs` —
  the inode store and the metadata cache;
* `tests/failpoints/consistency.rs` — the consistency checker.

Machine integers are modelled by `Nat` (with explicit `% 2^w` where overflow
or truncation matters), byte strings by `List Nat`, fallible code by
`Except`, and the mutable KV store by explicit state passing over
association lists.  Effects that are external to the semantics we study
(random nonces, the wall clock, freshly drawn UUIDs) are passed as explicit
arguments.
-/

deriving instance DecidableEq for Except

/-- Bytes are modelled as natural numbers (each concrete byte below is < 256). -/
abbrev Byte := Nat

/-! ## Key kinds (key codec)

The byte layout of keys lives in `fs/key_codec.rs`, which is not under
`src/`; the one-byte prefix enumeration is modelled from the spec.
-/

/-- Modelled from the spec: `fs/key_codec.rs` is not in the source tree.  Every
key begins with a one-byte prefix identifying the kind (Inode, Chunk, DirEntry,
DirScan, DirCookie, Tombstone, SystemCounter, DatasetRegistry, WrappedKey).
The concrete byte values are not given by the spec; the properties proved
below depend only on distinctness of the kinds. -/
inductive KeyKind
  | Inode
  | Chunk
  | DirEntry
  | DirScan
  | DirCookie
  | Tombstone
  | SystemCounter
  | DatasetRegistry
  | WrappedKey
deriving DecidableEq

/-- Modelled from the spec: the one-byte encoding of a key kind. -/
def KeyKind.toByte : KeyKind → Byte
  | .Inode => 1
  | .Chunk => 2
  | .DirEntry => 3
  | .DirScan => 4
  | .DirCookie => 5
  | .Tombstone => 6
  | .SystemCounter => 7
  | .DatasetRegistry => 8
  | .WrappedKey => 9

/-- Modelled from the spec: `KeyPrefix::try_from` on a raw byte. -/
def keyKindOfByte (b : Byte) : Option KeyKind :=
  if b = 1 then some .Inode
  else if b = 2 then some .Chunk
  else if b = 3 then some .DirEntry
  else if b = 4 then some .DirScan
  else if b = 5 then some .DirCookie
  else if b = 6 then some .Tombstone
  else if b = 7 then some .SystemCounter
  else if b = 8 then some .DatasetRegistry
  else if b = 9 then some .WrappedKey
  else none

/-- Modelled from the spec: fixed-width big-endian `u64` inside keys. -/
def u64_be (n : Nat) : List Byte :=
  [n / 2^56 % 256, n / 2^48 % 256, n / 2^40 % 256, n / 2^32 % 256,
   n / 2^24 % 256, n / 2^16 % 256, n / 2^8 % 256, n % 256]

/-- Modelled from the spec: `KeyCodec::chunk_key(inode_id, index)`. -/
def chunk_key (inode_id index : Nat) : List Byte :=
  KeyKind.Chunk.toByte :: (u64_be inode_id ++ u64_be index)

/-- Modelled from the spec: `KeyCodec::inode_key(id)`. -/
def inode_key (id : Nat) : List Byte :=
  KeyKind.Inode.toByte :: u64_be id

/-- Mirrors `is_chunk_key` in `encryption.rs`: the first byte parses as the
Chunk prefix. -/
def is_chunk_key (key : List Byte) : Bool :=
  match key.head? with
  | some b => decide (keyKindOfByte b = some KeyKind.Chunk)
  | none => false

/-! ## Compression (`lz4_flex`, `zstd`)

The compression libraries are external crates.  They are modelled by their
documented framing contracts, which is all `encryption.rs` relies on:
LZ4 `compress_prepend_size` prepends the uncompressed length as a
little-endian `u32`; every Zstd frame begins with the magic
`28 B5 2F FD`; `zstd::bulk::decompress(data, capacity)` fails when the
decompressed payload exceeds `capacity`.  The entropy-coded body is modelled
by the identity, which realises the round-trip contract of both crates.
-/

/-- The Zstd frame magic, as in `encryption.rs` (`ZSTD_MAGIC`). -/
def ZSTD_MAGIC : List Byte := [0x28, 0xB5, 0x2F, 0xFD]

/-- Modelled from the spec: `CHUNK_SIZE` is defined in `fs/mod.rs`, which is
not in the source tree; the spec gives 256 KiB. -/
def CHUNK_SIZE : Nat := 262144

/-- Compression configuration, as in `config.rs` / the spec: LZ4 or Zstd with
a level. -/
inductive CompressionConfig
  | Lz4
  | Zstd (level : Int)
deriving DecidableEq

/-- A `u32` in little-endian byte order (with the `as u32` truncation of
`compress_prepend_size`). -/
def u32_le (n : Nat) : List Byte :=
  [n % 256, n / 2^8 % 256, n / 2^16 % 256, n / 2^24 % 256]

/-- The numeric value of a 4-byte little-endian prefix. -/
def u32_le_val (bs : List Byte) : Nat :=
  match bs with
  | [b0, b1, b2, b3] => b0 + b1 * 2^8 + b2 * 2^16 + b3 * 2^24
  | _ => 0

/-- Modelled from the spec: `lz4_flex::compress_prepend_size` — the
uncompressed size as a little-endian `u32`, then the LZ4 body (modelled by
the identity). -/
def lz4_compress_prepend_size (p : List Byte) : List Byte :=
  u32_le p.length ++ p

/-- Modelled from the spec: `lz4_flex::decompress_size_prepended` — reads the
4-byte length prefix and fails unless the body decompresses to exactly that
length. -/
def lz4_decompress_size_prepended (d : List Byte) : Option (List Byte) :=
  if d.length < 4 then none
  else if (d.drop 4).length = u32_le_val (d.take 4) then some (d.drop 4)
  else none

/-- Modelled from the spec: `zstd::bulk::compress` — a Zstd frame beginning
with the magic bytes (body modelled by the identity; the level only affects
the entropy coding). -/
def zstd_compress (_level : Int) (p : List Byte) : List Byte :=
  ZSTD_MAGIC ++ p

/-- Modelled from the spec: `zstd::bulk::decompress(data, capacity)` — fails
on a malformed frame, and fails when the decompressed payload is larger than
`capacity` (the crate decompresses into a buffer of that size). -/
def zstd_decompress (d : List Byte) (capacity : Nat) : Option (List Byte) :=
  if d.take 4 = ZSTD_MAGIC then
    if (d.drop 4).length ≤ capacity then some (d.drop 4) else none
  else none

/-! ## Encryption manager (`encryption.rs`) -/

/-- Nonce length of XChaCha20-Poly1305, as in `encryption.rs` (`NONCE_SIZE`). -/
def NONCE_SIZE : Nat := 24

/-- Modelled from the spec: the XChaCha20-Poly1305 AEAD cipher is an external
crate; it is modelled as any nonce-indexed cipher whose decryption inverts
encryption.  `encryption.rs` draws a fresh random 24-byte nonce per record;
the nonce is passed explicitly here. -/
structure Cipher where
  enc : List Byte → List Byte → List Byte
  dec : List Byte → List Byte → Option (List Byte)
  dec_enc : ∀ nonce m, dec nonce (enc nonce m) = some m

/-- A trivially correct cipher instance, used to evaluate the model on
concrete inputs. -/
def idCipher : Cipher where
  enc := fun _ m => m
  dec := fun _ c => some c
  dec_enc := fun _ _ => rfl

/-- `EncryptionManager` from `encryption.rs`: a cipher keyed by the derived
data key, plus the configured compression algorithm. -/
structure EncryptionManager where
  cipher : Cipher
  compression : CompressionConfig

/-- `EncryptionManager::encrypt`: for chunk keys, compress with the configured
algorithm; then encrypt and prepend the nonce.  The random nonce is an
explicit argument. -/
def EncryptionManager.encrypt (self : EncryptionManager) (nonce key plaintext : List Byte) :
    List Byte :=
  let data :=
    if is_chunk_key key then
      match self.compression with
      | CompressionConfig.Lz4 => lz4_compress_prepend_size plaintext
      | CompressionConfig.Zstd level => zstd_compress level plaintext
    else plaintext
  nonce ++ self.cipher.enc nonce data

/-- `EncryptionManager::decrypt`: split off the nonce, decrypt, and for chunk
keys select the decompressor by comparing the first four decrypted bytes with
the Zstd magic. -/
def EncryptionManager.decrypt (self : EncryptionManager) (key data : List Byte) :
    Option (List Byte) :=
  if data.length < NONCE_SIZE then none
  else
    let nonce := data.take NONCE_SIZE
    let ciphertext := data.drop NONCE_SIZE
    match self.cipher.dec nonce ciphertext with
    | none => none
    | some decrypted =>
      if is_chunk_key key then
        if 4 ≤ decrypted.length ∧ decrypted.take 4 = ZSTD_MAGIC then
          zstd_decompress decrypted CHUNK_SIZE
        else
          lz4_decompress_size_prepended decrypted
      else some decrypted

/-- A manager configured for Zstd over the trivial cipher, for concrete
evaluation. -/
def zstdManager : EncryptionManager := ⟨idCipher, CompressionConfig.Zstd 3⟩

/-- The chunk key `Chunk(1, 0)`. -/
def sampleChunkKey : List Byte := chunk_key 1 0

/-- A fixed 24-byte nonce for concrete evaluation. -/
def zeroNonce : List Byte := List.replicate NONCE_SIZE 0

/-- A chunk plaintext one byte larger than `CHUNK_SIZE`. -/
def oversizedPlain : List Byte := List.replicate (CHUNK_SIZE + 1) 0

/-! ## Lock manager (`fs/lock_manager.rs`) -/

/-- Rust `Vec::dedup`: remove consecutive repeated elements. -/
def dedup_consecutive : List Nat → List Nat
  | [] => []
  | [a] => [a]
  | a :: b :: rest =>
    if a = b then dedup_consecutive (b :: rest)
    else a :: dedup_consecutive (b :: rest)

/-- The ordered sequence of inode ids locked by
`LockManager::acquire_multiple_write`: the input is sorted ascending
(`Vec::sort`, modelled by insertion sort, which computes the same ascending
order) and deduplicated (`Vec::dedup`), then each lock is acquired in that
sequence order. -/
def acquire_multiple_write (inode_ids : List Nat) : List Nat :=
  dedup_consecutive (List.insertionSort (· ≤ ·) inode_ids)

/-! ## Inode-id validation (`fs/constants.rs`) -/

/-- `validation::MAX_NORMAL_INODE_ID`. -/
def MAX_NORMAL_INODE_ID : Nat := 100000

/-- `SNAPSHOTS_ROOT_INODE`, the reserved inode id of the `/snapshots` virtual
directory (`0xFFFFFFFF00000001`). -/
def SNAPSHOTS_ROOT_INODE : Nat := 0xFFFFFFFF00000001

/-- `validation::is_valid_inode_id`: rejects 0, and rejects the corrupted
pattern (low 32 bits equal to `0x00000001` with high 32 bits strictly between
0 and 1000).  `InodeId` is `u64`; on inputs below `2^64` the `Nat` divisions
agree with the Rust shifts and casts. -/
def is_valid_inode_id (inode_id : Nat) : Bool :=
  if inode_id = 0 then false
  else
    let low_32_bits := inode_id % 2^32
    let high_32_bits := inode_id / 2^32 % 2^32
    if low_32_bits = 1 ∧ 0 < high_32_bits ∧ high_32_bits < 1000 then false
    else true

/-! ## Filesystem errors (`fs/errors.rs`) -/

/-- Modelled from the spec: `fs/errors.rs` is not in the source tree; the
error taxonomy is given in the spec, and `NotDirectory` appears literally in
`snapshot_manager.rs`. -/
inductive FsError
  | NotFound
  | Exists
  | NotDirectory
  | IsDirectory
  | NotEmpty
  | PermissionDenied
  | InvalidArgument
  | InvalidData
  | IoError
  | ReadOnlyFilesystem
  | NameTooLong
  | QuotaExceeded
deriving DecidableEq

/-! ## Association-list helpers

The underlying LSM database and the in-process caches are modelled as
association lists with last-write-wins insertion.
-/

/-- Look up a key in an association list. -/
def alist_get [DecidableEq α] (m : List (α × β)) (k : α) : Option β :=
  (m.find? (fun p => decide (p.1 = k))).map (fun p => p.2)

/-- Insert or overwrite a key in an association list. -/
def alist_put [DecidableEq α] (m : List (α × β)) (k : α) (v : β) : List (α × β) :=
  (k, v) :: m.filter (fun p => decide (p.1 ≠ k))

/-- Delete a key from an association list. -/
def alist_del [DecidableEq α] (m : List (α × β)) (k : α) : List (α × β) :=
  m.filter (fun p => decide (p.1 ≠ k))

/-! ## Inodes (`fs/inode.rs`)

`fs/inode.rs` is not in the source tree; the variants and fields are modelled
from the spec together with the literal field lists used when
`snapshot_manager.rs` constructs a `DirectoryInode`.
-/

/-- Directory entry names.  They are byte strings in Rust; every name in this
development is ASCII, so they are modelled as strings. -/
abbrev Name := String

/-- Modelled from the spec: the `DirectoryInode` payload, with exactly the
fields `snapshot_manager.rs` constructs. -/
structure DirectoryInode where
  mtime : Nat
  mtime_nsec : Nat
  ctime : Nat
  ctime_nsec : Nat
  atime : Nat
  atime_nsec : Nat
  mode : Nat
  uid : Nat
  gid : Nat
  entry_count : Nat
  parent : Nat
  name : Option Name
  nlink : Nat
deriving DecidableEq

/-- Modelled from the spec: the `FileInode` payload (size, link count,
ownership). -/
structure FileInode where
  size : Nat
  nlink : Nat
  mode : Nat
  uid : Nat
  gid : Nat
deriving DecidableEq

/-- Modelled from the spec: the payload common to the remaining variants —
only the link count matters to the properties below. -/
structure OtherInode where
  nlink : Nat
deriving DecidableEq

/-- Modelled from the spec: the tagged `Inode` enum, with the seven variants
matched by `SnapshotManager::increment_nlink`. -/
inductive Inode
  | File (f : FileInode)
  | Directory (d : DirectoryInode)
  | Symlink (s : OtherInode)
  | Fifo (s : OtherInode)
  | Socket (s : OtherInode)
  | CharDevice (s : OtherInode)
  | BlockDevice (s : OtherInode)
deriving DecidableEq

/-- The exclusive upper bound of `u32`, for `nlink` saturation. -/
def U32_LIMIT : Nat := 4294967296

/-- `u32::saturating_add(1)`. -/
def sat_add_one (n : Nat) : Nat := min (n + 1) (U32_LIMIT - 1)

/-! ## Datasets (`fs/dataset.rs`) -/

/-- `Dataset` from `fs/dataset.rs`.  `Uuid` values are modelled as naturals;
`Uuid::new_v4` draws randomness, so freshly drawn UUIDs are explicit
arguments below. -/
structure Dataset where
  id : Nat
  name : String
  uuid : Nat
  parent_id : Option Nat
  parent_uuid : Option Nat
  root_inode : Nat
  created_at : Nat
  is_readonly : Bool
  is_snapshot : Bool
  generation : Nat
  flags : Nat
deriving DecidableEq

/-- `Dataset::new`. -/
def Dataset.new (id : Nat) (name : String) (uuid root_inode created_at : Nat)
    (is_readonly : Bool) : Dataset :=
  { id := id, name := name, uuid := uuid, parent_id := none, parent_uuid := none,
    root_inode := root_inode, created_at := created_at, is_readonly := is_readonly,
    is_snapshot := false, generation := 1, flags := 0 }

/-- `Dataset::new_snapshot`: marks the dataset as a snapshot of `source` and
copies `is_readonly` from the caller-supplied argument. -/
def Dataset.new_snapshot (id : Nat) (name : String) (uuid : Nat) (source : Dataset)
    (root_inode created_at : Nat) (is_readonly : Bool) : Dataset :=
  { id := id, name := name, uuid := uuid, parent_id := some source.id,
    parent_uuid := some source.uuid, root_inode := root_inode,
    created_at := created_at, is_readonly := is_readonly, is_snapshot := true,
    generation := source.generation, flags := 0 }

/-- The `readonly` field of the RPC `CreateSnapshotRequest` is optional;
`rpc/server.rs` defaults it with `req.readonly.unwrap_or(false)`. -/
def rpc_create_snapshot_readonly (req_readonly : Option Bool) : Bool :=
  req_readonly.getD false

/-- `DatasetRegistry` from `fs/dataset.rs` (hash maps modelled as association
lists). -/
structure DatasetRegistry where
  next_id : Nat
  datasets : List (Nat × Dataset)
  name_to_id : List (String × Nat)
  default_dataset_id : Nat
deriving DecidableEq

/-- `DatasetRegistry::new_with_root`. -/
def DatasetRegistry.new_with_root (root_inode created_at uuid : Nat) : DatasetRegistry :=
  let root_subvol := Dataset.new 0 "root" uuid root_inode created_at false
  { next_id := 1, datasets := [(0, root_subvol)], name_to_id := [("root", 0)],
    default_dataset_id := 0 }

/-- `DatasetRegistry::allocate_id`. -/
def DatasetRegistry.allocate_id (r : DatasetRegistry) : Nat × DatasetRegistry :=
  (r.next_id, { r with next_id := r.next_id + 1 })

/-- `DatasetRegistry::get_by_id`. -/
def DatasetRegistry.get_by_id (r : DatasetRegistry) (id : Nat) : Option Dataset :=
  alist_get r.datasets id

/-- `DatasetRegistry::add_dataset`: fails when the name is already taken. -/
def DatasetRegistry.add_dataset (r : DatasetRegistry) (dataset : Dataset) :
    Except String DatasetRegistry :=
  if (alist_get r.name_to_id dataset.name).isSome then
    .error "dataset already exists"
  else
    .ok { r with datasets := alist_put r.datasets dataset.id dataset,
                 name_to_id := alist_put r.name_to_id dataset.name dataset.id }

/-! ## The typed KV store

The snapshot, clone and consistency-checker code operates on serialized
values under codec-generated keys.  `fs/key_codec.rs` and the `bincode`
encoding are not in the source tree; the store is therefore modelled at the
typed level: one constructor per key shape, one per value shape.  `DirEntry`
values appear in two encodings in the sources: `KeyCodec::encode_dir_entry`
(child id plus cookie), and the raw 8-byte child id written by the snapshot
paths; both are modelled.
-/

/-- Typed view of the codec-generated keys used by the snapshot, clone and
checker code. -/
inductive Key
  | inode (id : Nat)
  | chunk (id : Nat) (index : Nat)
  | dirEntry (dir : Nat) (name : Name)
  | dirScan (dir : Nat) (cookie : Nat)
  | dirCookie (dir : Nat)
  | systemCounter
  | datasetRegistry
deriving DecidableEq

/-- Typed view of the serialized values stored under those keys. -/
inductive Val
  | inode (i : Inode)
  | chunk (bytes : List Byte)
  | dirEntry (child : Nat) (cookie : Nat)
  | dirEntryRef (child : Nat)
  | dirScan (child : Nat) (name : Name)
  | counter (n : Nat)
  | registry (r : DatasetRegistry)
deriving DecidableEq

/-- The persisted contents of the KV store. -/
abbrev KV := List (Key × Val)

/-- Point lookup. -/
def kvGet (kv : KV) (k : Key) : Option Val := alist_get kv k

/-- One individually-committed KV write (`EncryptedDb::put_with_options`). -/
def kvPut (kv : KV) (k : Key) (v : Val) : KV := alist_put kv k v

/-- Apply a sequence of individual KV writes in order; a prefix of the
sequence is the state persisted when the process crashes mid-way. -/
def applyWrites (base : KV) (ws : List (Key × Val)) : KV :=
  ws.foldl (fun kv p => kvPut kv p.1 p.2) base

/-- In-memory plus persisted state threaded through the snapshot and clone
paths: the KV contents, the `InodeStore` allocation counter, the in-memory
`DatasetRegistry` mirror, and whether the handle is a read-only reader. -/
structure FsState where
  read_only : Bool
  kv : KV
  next_inode_id : Nat
  registry : DatasetRegistry
deriving DecidableEq

/-- `InodeStore::allocate`: `fetch_add(1)` on the in-memory counter. -/
def FsState.allocate (s : FsState) : Nat × FsState :=
  (s.next_inode_id, { s with next_inode_id := s.next_inode_id + 1 })

/-- A state paired with the ordered log of the individual KV writes issued so
far.  Every `db.put_with_options` call in the snapshot and clone paths is one
element of the log. -/
structure SnapEff where
  st : FsState
  writes : List (Key × Val)
deriving DecidableEq

/-- Issue one KV write: updates the store and appends to the write log. -/
def SnapEff.put (e : SnapEff) (k : Key) (v : Val) : SnapEff :=
  { st := { e.st with kv := kvPut e.st.kv k v }, writes := e.writes ++ [(k, v)] }

/-- Replace the in-memory registry mirror. -/
def SnapEff.setRegistry (e : SnapEff) (r : DatasetRegistry) : SnapEff :=
  { e with st := { e.st with registry := r } }

/-- `InodeStore::get`, reading the inode table (the metadata-cache
read-through of `store/inode.rs` returns the same value and is omitted
here): absent keys give `NotFound`, non-inode payloads give `InvalidData`. -/
def getInode (kv : KV) (id : Nat) : Except FsError Inode :=
  match kvGet kv (Key.inode id) with
  | some (Val.inode i) => .ok i
  | some _ => .error FsError.InvalidData
  | none => .error FsError.NotFound

/-- Modelled from the spec: `COOKIE_FIRST_ENTRY` in `fs/store/directory.rs`,
which is not in the source tree — the first cookie handed to a real directory
entry.  Its exact value does not affect any theorem below. -/
def COOKIE_FIRST_ENTRY : Nat := 3

/-- The cookie-counter read pattern of `snapshot_manager.rs` and `clone.rs`:
`Ok(Some(val))` parses the counter (malformed values are `IoError`), anything
else falls back to `COOKIE_FIRST_ENTRY`. -/
def readCookieOr (kv : KV) (dir : Nat) : Except FsError Nat :=
  match kvGet kv (Key.dirCookie dir) with
  | some (Val.counter n) => .ok n
  | some _ => .error FsError.IoError
  | none => .ok COOKIE_FIRST_ENTRY

/-- Modelled from the spec: `DirectoryStore::exists` (`fs/store/directory.rs`
is not in the source tree) — a `DirEntry(dir, name)` key is present. -/
def directory_exists (kv : KV) (dir : Nat) (name : Name) : Bool :=
  (kvGet kv (Key.dirEntry dir name)).isSome

/-- The `DirScan` range scan of a directory, in cookie order (keys are
big-endian, so byte order is cookie order): the `(cookie, child, name)`
triples under the directory's scan prefix. -/
def dirScanEntries (kv : KV) (dir : Nat) : List (Nat × Nat × Name) :=
  List.insertionSort (fun p q => p.1 ≤ q.1)
    (kv.filterMap (fun p =>
      match p with
      | (Key.dirScan d c, Val.dirScan child name) =>
        if d = dir then some (c, child, name) else none
      | _ => none))

/-! ## Snapshot manager (`fs/snapshot_manager.rs`)

Every `db.put_with_options(...)` call in the source is one `SnapEff.put`:
an individually-committed KV write issued with `await_durable: false`.
The wall-clock reads (`get_current_time`) are passed in as arguments.
-/

/-- `SnapshotManager::ensure_snapshots_root_directory`: if no
`DirEntry(root, "snapshots")` exists, write the `/snapshots` directory inode
directly under `SNAPSHOTS_ROOT_INODE` (outside any transaction), bump the
root's cookie counter, and add the `DirEntry`/`DirScan` pair in the root. -/
def ensure_snapshots_root_directory (e : SnapEff) (root_dir_inode now_sec : Nat) :
    Except FsError SnapEff :=
  if directory_exists e.st.kv root_dir_inode "snapshots" then .ok e
  else do
    let snapshots_dir := Inode.Directory
      { mtime := now_sec, mtime_nsec := 0, ctime := now_sec, ctime_nsec := 0,
        atime := now_sec, atime_nsec := 0, mode := 0o755, uid := 0, gid := 0,
        entry_count := 0, parent := root_dir_inode, name := some "snapshots",
        nlink := 2 }
    let e := e.put (Key.inode SNAPSHOTS_ROOT_INODE) (Val.inode snapshots_dir)
    let cookie ← readCookieOr e.st.kv root_dir_inode
    let e := e.put (Key.dirCookie root_dir_inode) (Val.counter (cookie + 1))
    let e := e.put (Key.dirEntry root_dir_inode "snapshots")
      (Val.dirEntryRef SNAPSHOTS_ROOT_INODE)
    let e := e.put (Key.dirScan root_dir_inode cookie)
      (Val.dirScan SNAPSHOTS_ROOT_INODE "snapshots")
    .ok e

/-- `SnapshotManager::create_snapshot_directory`: repoint the snapshot root's
parent and name at `/snapshots`, link it there, and bump the `/snapshots`
directory metadata — again as individual writes. -/
def create_snapshot_directory (e : SnapEff) (snapshot_name : Name)
    (snapshot_root_inode created_at : Nat) : Except FsError SnapEff := do
  let snapshot_root ← getInode e.st.kv snapshot_root_inode
  match snapshot_root with
  | Inode.Directory dir => do
    let updated := Inode.Directory
      { dir with parent := SNAPSHOTS_ROOT_INODE, name := some snapshot_name }
    let e := e.put (Key.inode snapshot_root_inode) (Val.inode updated)
    let cookie ← readCookieOr e.st.kv SNAPSHOTS_ROOT_INODE
    let e := e.put (Key.dirCookie SNAPSHOTS_ROOT_INODE) (Val.counter (cookie + 1))
    let e := e.put (Key.dirEntry SNAPSHOTS_ROOT_INODE snapshot_name)
      (Val.dirEntryRef snapshot_root_inode)
    let e := e.put (Key.dirScan SNAPSHOTS_ROOT_INODE cookie)
      (Val.dirScan snapshot_root_inode snapshot_name)
    let snapshots_dir ← getInode e.st.kv SNAPSHOTS_ROOT_INODE
    let snapshots_dir2 :=
      match snapshots_dir with
      | Inode.Directory d => Inode.Directory
        { d with entry_count := d.entry_count + 1, mtime := created_at,
                 mtime_nsec := 0, ctime := created_at, ctime_nsec := 0 }
      | other => other
    let e := e.put (Key.inode SNAPSHOTS_ROOT_INODE) (Val.inode snapshots_dir2)
    .ok e
  | _ => .error FsError.NotDirectory

/-- `SnapshotManager::increment_nlink`: saturating `nlink + 1` on every
variant. -/
def increment_nlink (inode : Inode) : Inode :=
  match inode with
  | Inode.File f => Inode.File { f with nlink := sat_add_one f.nlink }
  | Inode.Directory d => Inode.Directory { d with nlink := sat_add_one d.nlink }
  | Inode.Symlink s => Inode.Symlink { s with nlink := sat_add_one s.nlink }
  | Inode.Fifo s => Inode.Fifo { s with nlink := sat_add_one s.nlink }
  | Inode.Socket s => Inode.Socket { s with nlink := sat_add_one s.nlink }
  | Inode.CharDevice s => Inode.CharDevice { s with nlink := sat_add_one s.nlink }
  | Inode.BlockDevice s => Inode.BlockDevice { s with nlink := sat_add_one s.nlink }

/-- `MAX_ENTRIES` in `clone_directory_entries`. -/
def MAX_ENTRIES : Nat := 100000

/-- The per-entry body of `SnapshotManager::clone_directory_entries`: re-emit
the `DirEntry`/`DirScan` pair under the destination directory, read the entry
back (returning `IoError` when absent), then increment the referenced
inode's `nlink` in place. -/
def clone_entries_go (dest_dir_id : Nat) (e : SnapEff)
    (entries : List (Nat × Nat × Name)) : Except FsError SnapEff :=
  match entries with
  | [] => .ok e
  | (cookie, inode_id, name) :: rest => do
    let e := e.put (Key.dirEntry dest_dir_id name) (Val.dirEntry inode_id cookie)
    let e := e.put (Key.dirScan dest_dir_id cookie) (Val.dirScan inode_id name)
    match kvGet e.st.kv (Key.dirEntry dest_dir_id name) with
    | none => .error FsError.IoError
    | some _ => do
      let inode ← getInode e.st.kv inode_id
      let updated_inode := increment_nlink inode
      let e := e.put (Key.inode inode_id) (Val.inode updated_inode)
      clone_entries_go dest_dir_id e rest

/-- `SnapshotManager::clone_directory_entries`: collect the source
directory's `DirScan` entries (cookie order), re-emit each under the
destination (bumping each referenced inode's `nlink`), then copy the cookie
counter verbatim when the source has one. -/
def clone_directory_entries (e : SnapEff) (source_dir_id dest_dir_id : Nat) :
    Except FsError SnapEff := do
  let entries := dirScanEntries e.st.kv source_dir_id
  if entries.length > MAX_ENTRIES then .error FsError.IoError
  else do
    let e ← clone_entries_go dest_dir_id e entries
    match kvGet e.st.kv (Key.dirCookie source_dir_id) with
    | some counter_data => .ok (e.put (Key.dirCookie dest_dir_id) counter_data)
    | none => .ok e

/-- `DatasetStore::create_snapshot` (`fs/store/dataset.rs`): allocate a
registry id, build the `Dataset` via `Dataset::new_snapshot`, add it to the
in-memory registry (duplicate names give `Exists`), and persist the whole
registry as one KV write. -/
def dataset_store_create_snapshot (e : SnapEff) (source_id : Nat)
    (snapshot_name : String) (snapshot_root_inode created_at : Nat)
    (is_readonly : Bool) (uuid : Nat) : Except FsError (Dataset × SnapEff) := do
  if e.st.read_only then .error FsError.ReadOnlyFilesystem
  else do
    let registry := e.st.registry
    match registry.get_by_id source_id with
    | none => .error FsError.NotFound
    | some source => do
      let (id, registry) := registry.allocate_id
      let snapshot := Dataset.new_snapshot id snapshot_name uuid source
        snapshot_root_inode created_at is_readonly
      match registry.add_dataset snapshot with
      | .error _ => .error FsError.Exists
      | .ok registry => do
        let e := e.setRegistry registry
        let e := e.put Key.datasetRegistry (Val.registry registry)
        .ok (snapshot, e)

/-- `SnapshotManager::create_snapshot`: clone the source root inode under a
freshly allocated id, ensure `/snapshots` exists, register the snapshot
dataset, re-emit the root's directory entries under the new root id
(bumping shared nlinks), flush, then link the snapshot under `/snapshots`.
Every KV change is an individual write in `(·).writes`; the source issues no
transaction here. -/
def create_snapshot (s : FsState) (source_id : Nat) (snapshot_name : String)
    (created_at : Nat) (is_readonly : Bool) (uuid : Nat) :
    Except FsError (Dataset × SnapEff) := do
  if s.read_only then .error FsError.ReadOnlyFilesystem
  else do
    match s.registry.get_by_id source_id with
    | none => .error FsError.NotFound
    | some source => do
      let source_root_inode ← getInode s.kv source.root_inode
      let (snapshot_root_id, s) := s.allocate
      let snapshot_root ←
        match source_root_inode with
        | Inode.Directory dir => Except.ok (Inode.Directory
            { mtime := dir.mtime, mtime_nsec := dir.mtime_nsec,
              ctime := created_at, ctime_nsec := 0,
              atime := dir.atime, atime_nsec := dir.atime_nsec,
              mode := dir.mode, uid := dir.uid, gid := dir.gid,
              entry_count := dir.entry_count, parent := snapshot_root_id,
              name := none, nlink := dir.nlink })
        | _ => Except.error FsError.NotDirectory
      let e : SnapEff := { st := s, writes := [] }
      let e ← ensure_snapshots_root_directory e 0 created_at
      let e := e.put (Key.inode snapshot_root_id) (Val.inode snapshot_root)
      let (snapshot, e) ← dataset_store_create_snapshot e source_id snapshot_name
        snapshot_root_id created_at is_readonly uuid
      let e ← clone_directory_entries e source.root_inode snapshot_root_id
      let e ← create_snapshot_directory e snapshot_name snapshot_root_id created_at
      .ok (snapshot, e)

/-! ## Deep clone (`fs/clone.rs`) -/

/-- `clone_directory_deep`: collect the source directory's entries, and for
each (skipping `.` and `..`, and skipping entries whose inode cannot be
read): allocate a fresh inode id, copy the inode value under it, bump the
destination cookie counter, link the copy in the destination, and recurse
into subdirectories.  No `Chunk` key is ever written.  The source recursion
is unbounded; the explicit fuel only caps recursion depth and is ample for
every state considered below. -/
def clone_directory_deep : Nat → SnapEff → Nat → Nat → Except FsError SnapEff
  | 0, _, _, _ => .error FsError.IoError
  | Nat.succ fuel, e0, source_dir_id, dest_dir_id =>
    let entries := dirScanEntries e0.st.kv source_dir_id
    entries.foldlM (fun e entry => do
      let (_cookie, source_inode_id, name) := entry
      if name = "." ∨ name = ".." then pure e
      else
        match kvGet e.st.kv (Key.inode source_inode_id) with
        | some (Val.inode source_inode) => do
          let (new_inode_id, st2) := e.st.allocate
          let e : SnapEff := { e with st := st2 }
          let cloned_inode := source_inode
          let e := e.put (Key.inode new_inode_id) (Val.inode cloned_inode)
          let cookie ← readCookieOr e.st.kv dest_dir_id
          let e := e.put (Key.dirCookie dest_dir_id) (Val.counter (cookie + 1))
          let e := e.put (Key.dirEntry dest_dir_id name)
            (Val.dirEntry new_inode_id cookie)
          let e := e.put (Key.dirScan dest_dir_id cookie)
            (Val.dirScan new_inode_id name)
          match cloned_inode with
          | Inode.Directory _ => clone_directory_deep fuel e source_inode_id new_inode_id
          | _ => pure e
        | _ => pure e) e0

/-! ## Consistency checker (`tests/failpoints/consistency.rs`)

The checker pieces needed below: inode enumeration, the directory-tree walk
that accumulates reference and subdirectory counts, and the verifiers for
directory nlinks, the inode counter, and file chunks.
-/

/-- `ROOT_INODE_ID` in the consistency checker. -/
def ROOT_INODE_ID : Nat := 0

/-- `DIR_BASE_NLINK` in the consistency checker. -/
def DIR_BASE_NLINK : Nat := 2

/-- The checker errors relevant to the properties below, with the fields of
`ConsistencyError` in `consistency.rs`. -/
inductive ConsistencyError
  | InodeCounterTooLow (stored_counter max_inode_id : Nat)
  | DirectoryNlinkMismatch (inode_id stored_nlink expected_nlink subdir_count : Nat)
  | MissingChunks (inode_id file_size expected_chunks found_chunks : Nat)
deriving DecidableEq

/-- `ConsistencyChecker::enumerate_inodes`: the ids of all keys in the inode
table. -/
def valid_inodes (kv : KV) : List Nat :=
  kv.filterMap (fun p =>
    match p.1 with
    | Key.inode id => some id
    | _ => none)

/-- The reference and subdirectory counts accumulated by
`walk_directory_tree`. -/
structure WalkAcc where
  inode_refs : List (Nat × Nat)
  subdir_counts : List (Nat × Nat)
deriving DecidableEq

/-- The empty accumulator. -/
def emptyWalkAcc : WalkAcc := { inode_refs := [], subdir_counts := [] }

/-- Increment a counter map entry. -/
def bumpCount (m : List (Nat × Nat)) (k : Nat) : List (Nat × Nat) :=
  alist_put m k ((alist_get m k).getD 0 + 1)

/-- `ConsistencyChecker::walk_directory_tree`: walk the listing of `dir_id`,
bumping `inode_refs` for every entry, bumping `subdir_counts[dir_id]` for
every child directory, and recursing into child directories other than the
walked directory itself and the root.  The source recursion is unbounded
(and need not terminate once snapshots introduce directory sharing cycles);
the fuel caps the depth and is ample for the states considered below. -/
def walk_directory_tree (kv : KV) : Nat → Nat → WalkAcc → WalkAcc
  | 0, _, acc => acc
  | Nat.succ fuel, dir_id, acc =>
    (dirScanEntries kv dir_id).foldl (fun acc entry =>
      let (_cookie, child, _name) := entry
      let acc := { acc with inode_refs := bumpCount acc.inode_refs child }
      if (kvGet kv (Key.inode child)).isNone then acc
      else
        match getInode kv child with
        | .ok (Inode.Directory _) =>
          let acc := { acc with subdir_counts := bumpCount acc.subdir_counts dir_id }
          if child ≠ dir_id ∧ child ≠ ROOT_INODE_ID then
            walk_directory_tree kv fuel child acc
          else acc
        | _ => acc) acc

/-- `ConsistencyChecker::verify_directory_nlinks`: every directory inode must
have `nlink = DIR_BASE_NLINK + subdir_count`. -/
def verify_directory_nlinks (kv : KV) (subdir_counts : List (Nat × Nat)) :
    List ConsistencyError :=
  (valid_inodes kv).foldl (fun errs inode_id =>
    match getInode kv inode_id with
    | .ok (Inode.Directory dir) =>
      let subdir_count := (alist_get subdir_counts inode_id).getD 0
      let expected_nlink := DIR_BASE_NLINK + subdir_count
      if dir.nlink ≠ expected_nlink then
        errs ++ [ConsistencyError.DirectoryNlinkMismatch inode_id dir.nlink
          expected_nlink subdir_count]
      else errs
    | _ => errs) []

/-- `ConsistencyChecker::verify_inode_counter`: the stored system counter
must be strictly greater than the largest live inode id. -/
def verify_inode_counter (kv : KV) : Except FsError (List ConsistencyError) :=
  let max_inode_id := (valid_inodes kv).foldl max ROOT_INODE_ID
  match kvGet kv Key.systemCounter with
  | some (Val.counter stored_counter) =>
    .ok (if stored_counter ≤ max_inode_id then
      [ConsistencyError.InodeCounterTooLow stored_counter max_inode_id]
    else [])
  | some _ => .error FsError.InvalidData
  | none =>
    if max_inode_id > ROOT_INODE_ID then
      .ok (if ROOT_INODE_ID ≤ max_inode_id then
        [ConsistencyError.InodeCounterTooLow ROOT_INODE_ID max_inode_id]
      else [])
    else .ok []

/-- `ConsistencyChecker::verify_file_chunks`: every referenced file of size
`S > 0` must have exactly `ceil(S / CHUNK_SIZE)` chunk records in the scan
range `Chunk(id, 0) .. Chunk(id, expected)`. -/
def verify_file_chunks (kv : KV) (inode_refs : List (Nat × Nat)) :
    List ConsistencyError :=
  (valid_inodes kv).foldl (fun errs inode_id =>
    if (alist_get inode_refs inode_id).isSome then
      match getInode kv inode_id with
      | .ok (Inode.File file) =>
        if file.size = 0 then errs
        else
          let expected_chunks := (file.size + CHUNK_SIZE - 1) / CHUNK_SIZE
          let found_chunks := ((List.range expected_chunks).filter
            (fun i => (kvGet kv (Key.chunk inode_id i)).isSome)).length
          if found_chunks ≠ expected_chunks then
            errs ++ [ConsistencyError.MissingChunks inode_id file.size
              expected_chunks found_chunks]
          else errs
      | _ => errs
    else errs) []

/-! ## Metadata cache and inode store (`metadata_cache.rs`, `fs/store/inode.rs`)

The cache maps inode ids to positive or negative entries.  LRU eviction and
the TTL on negative entries only remove entries; they are omitted, which
does not affect the put-then-get behaviour proved below.
-/

/-- The inode side of `MetadataCache`. -/
structure MetadataCache where
  inodes : List (Nat × Option Inode)
deriving DecidableEq

/-- `MetadataCache::get_inode`: `some (some i)` on a positive hit,
`some none` on a cached negative, `none` on a miss. -/
def MetadataCache.get_inode (c : MetadataCache) (inode_id : Nat) :
    Option (Option Inode) :=
  alist_get c.inodes inode_id

/-- `MetadataCache::put_inode`. -/
def MetadataCache.put_inode (c : MetadataCache) (inode_id : Nat)
    (inode : Option Inode) : MetadataCache :=
  { inodes := alist_put c.inodes inode_id inode }

/-- `MetadataCache::invalidate_inode`. -/
def MetadataCache.invalidate_inode (c : MetadataCache) (inode_id : Nat) :
    MetadataCache :=
  { inodes := alist_del c.inodes inode_id }

/-- The state owned by `InodeStore`: the committed database contents (typed
view), the allocation counter, and the metadata cache. -/
structure InodeStoreModel where
  store : KV
  next_id : Nat
  metadata_cache : MetadataCache
deriving DecidableEq

/-- A transaction being built: the ordered pending puts (typed view of
`EncryptedTransaction::pending_operations`). -/
abbrev Txn := List (Key × Val)

/-- `InodeStore::save`: append the serialized inode to the transaction via
`txn.put_bytes`, and immediately call `cache.put_inode(id, Some(inode))`.
The database itself is untouched until the transaction commits. -/
def InodeStore.save (s : InodeStoreModel) (txn : Txn) (id : Nat) (inode : Inode) :
    Txn × InodeStoreModel :=
  (txn ++ [(Key.inode id, Val.inode inode)],
   { s with metadata_cache := s.metadata_cache.put_inode id (some inode) })

/-- Committing a transaction applies its pending puts to the store
(`EncryptedDb::write_with_options` on the success path). -/
def commitTxn (s : InodeStoreModel) (txn : Txn) : InodeStoreModel :=
  { s with store := applyWrites s.store txn }

/-! ## Encrypted KV store (`encryption.rs`), byte level -/

/-- `EncryptedDb`: the handle kind (`SlateDbHandle::ReadOnly` vs
`ReadWrite`), the underlying slatedb contents (encrypted values), the
in-process key cache of decrypted non-chunk values, and the encryptor. -/
structure EncryptedDb where
  read_only : Bool
  store : List (List Byte × List Byte)
  key_cache : List (List Byte × List Byte)
  encryptor : EncryptionManager

/-- `EncryptedTransaction`: pending plaintext puts and deleted keys; the
deletes also populate the inner `WriteBatch` immediately, the puts are
encrypted and appended at `into_inner`. -/
structure EncryptedTransaction where
  pending_operations : List (List Byte × List Byte)
  deleted_keys : List (List Byte)

/-- `EncryptedDb::get_bytes`: the key cache is consulted and populated only
when `use_cache = !is_chunk && !read_only`; otherwise the store is read and
the value decrypted.  Decryption failures are errors; the returned state
carries the (possibly) updated cache. -/
def EncryptedDb.get_bytes (db : EncryptedDb) (key : List Byte) :
    Except FsError (Option (List Byte)) × EncryptedDb :=
  let is_chunk := is_chunk_key key
  let use_cache := !is_chunk && !db.read_only
  match (if use_cache then alist_get db.key_cache key else none) with
  | some entry => (.ok (some entry), db)
  | none =>
    match alist_get db.store key with
    | none => (.ok none, db)
    | some encrypted =>
      match db.encryptor.decrypt key encrypted with
      | none => (.error FsError.IoError, db)
      | some decrypted =>
        let db2 :=
          if use_cache then
            { db with key_cache := alist_put db.key_cache key decrypted }
          else db
        (.ok (some decrypted), db2)

/-- `EncryptedDb::new_transaction`: refused on a reader handle. -/
def EncryptedDb.new_transaction (db : EncryptedDb) :
    Except FsError EncryptedTransaction :=
  if db.read_only then .error FsError.ReadOnlyFilesystem
  else .ok { pending_operations := [], deleted_keys := [] }

/-- `EncryptedDb::write_with_options`: refused on a reader handle; otherwise
the batch (deletes, then the encrypted puts) is committed, and only then is
the key cache updated — deleted keys removed, non-chunk pending values
inserted.  The per-record random nonce is an explicit argument. -/
def EncryptedDb.write_with_options (db : EncryptedDb) (txn : EncryptedTransaction)
    (nonce : List Byte) : Except FsError Unit × EncryptedDb :=
  if db.read_only then (.error FsError.ReadOnlyFilesystem, db)
  else
    let store1 := txn.deleted_keys.foldl (fun st k => alist_del st k) db.store
    let store2 := txn.pending_operations.foldl
      (fun st p => alist_put st p.1 (db.encryptor.encrypt nonce p.1 p.2)) store1
    let cache1 := txn.deleted_keys.foldl (fun c k => alist_del c k) db.key_cache
    let cache2 := txn.pending_operations.foldl
      (fun c p => if is_chunk_key p.1 then c else alist_put c p.1 p.2) cache1
    (.ok (), { db with store := store2, key_cache := cache2 })

/-- `EncryptedDb::write_raw_batch`: refused on a reader handle; otherwise the
already-encrypted batch is committed and the cache updated as in
`write_with_options`. -/
def EncryptedDb.write_raw_batch (db : EncryptedDb)
    (batch : List (List Byte × List Byte))
    (pending_operations : List (List Byte × List Byte))
    (deleted_keys : List (List Byte)) : Except FsError Unit × EncryptedDb :=
  if db.read_only then (.error FsError.ReadOnlyFilesystem, db)
  else
    let store1 := deleted_keys.foldl (fun st k => alist_del st k) db.store
    let store2 := batch.foldl (fun st p => alist_put st p.1 p.2) store1
    let cache1 := deleted_keys.foldl (fun c k => alist_del c k) db.key_cache
    let cache2 := pending_operations.foldl
      (fun c p => if is_chunk_key p.1 then c else alist_put c p.1 p.2) cache1
    (.ok (), { db with store := store2, key_cache := cache2 })

/-- `EncryptedDb::put_with_options`: refused on a reader handle; otherwise
encrypt, write, and insert the plaintext into the key cache unless the key is
a chunk key. -/
def EncryptedDb.put_with_options (db : EncryptedDb) (key value nonce : List Byte) :
    Except FsError Unit × EncryptedDb :=
  if db.read_only then (.error FsError.ReadOnlyFilesystem, db)
  else
    let encrypted := db.encryptor.encrypt nonce key value
    let store2 := alist_put db.store key encrypted
    let cache2 :=
      if is_chunk_key key then db.key_cache
      else alist_put db.key_cache key value
    (.ok (), { db with store := store2, key_cache := cache2 })

/-- `EncryptedDb::flush`: refused on a reader handle; otherwise a durability
barrier with no KV effect. -/
def EncryptedDb.flush (db : EncryptedDb) : Except FsError Unit × EncryptedDb :=
  if db.read_only then (.error FsError.ReadOnlyFilesystem, db)
  else (.ok (), db)

/-! ## Concrete scenarios -/

/-- A root directory inode with one subdirectory entry. -/
def rootDirInode : DirectoryInode :=
  { mtime := 0, mtime_nsec := 0, ctime := 0, ctime_nsec := 0, atime := 0,
    atime_nsec := 0, mode := 0o755, uid := 0, gid := 0, entry_count := 1,
    parent := 0, name := none, nlink := 2 }

/-- A subdirectory `d` of the root, with no children (`nlink = 2`). -/
def subdirInode : DirectoryInode :=
  { mtime := 0, mtime_nsec := 0, ctime := 0, ctime_nsec := 0, atime := 0,
    atime_nsec := 0, mode := 0o755, uid := 0, gid := 0, entry_count := 0,
    parent := 0, name := some "d", nlink := 2 }

/-- Snapshot scenario: a consistent filesystem with root `0` containing one
empty subdirectory `d` (inode 1), a persisted inode counter of 2, and the
root dataset. -/
def snapS0 : FsState :=
  { read_only := false,
    kv := [
      (Key.inode 0, Val.inode (Inode.Directory rootDirInode)),
      (Key.inode 1, Val.inode (Inode.Directory subdirInode)),
      (Key.dirEntry 0 "d", Val.dirEntry 1 3),
      (Key.dirScan 0 3, Val.dirScan 1 "d"),
      (Key.dirCookie 0, Val.counter 4),
      (Key.systemCounter, Val.counter 2)],
    next_inode_id := 2,
    registry := DatasetRegistry.new_with_root 0 1000 5 }

/-- Creating the snapshot `snap1` of the root dataset at time 2000 with
`is_readonly = true` and fresh UUID 7. -/
def snapRun : Except FsError (Dataset × SnapEff) :=
  create_snapshot snapS0 0 "snap1" 2000 true 7

/-- The ordered individual KV writes issued by the run. -/
def snapWrites : List (Key × Val) :=
  match snapRun with
  | .ok out => out.2.writes
  | .error _ => []

/-- The final KV state of the run. -/
def snapFinalKv : KV :=
  match snapRun with
  | .ok out => out.2.st.kv
  | .error _ => []

/-- The persisted state after a crash once only the first write landed. -/
def snapCrash1 : KV := applyWrites snapS0.kv (snapWrites.take 1)

/-- The full write trace replayed over the initial store. -/
def snapReplayedKv : KV := applyWrites snapS0.kv snapWrites

/-- The checker walk over the post-snapshot state. -/
def snapWalk : WalkAcc := walk_directory_tree snapFinalKv 6 ROOT_INODE_ID emptyWalkAcc

/-- The directory-nlink errors the checker reports on the post-snapshot
state. -/
def snapNlinkErrors : List ConsistencyError :=
  verify_directory_nlinks snapFinalKv snapWalk.subdir_counts

/-- Clone scenario: root `0` holds source directory `s` (inode 1, containing
the 100-byte file `a` at inode 3 with its chunk present) and the fresh clone
target `c` (inode 2). -/
def cloneS0 : FsState :=
  { read_only := false,
    kv := [
      (Key.inode 0, Val.inode (Inode.Directory { rootDirInode with entry_count := 2 })),
      (Key.inode 1, Val.inode (Inode.Directory
        { subdirInode with entry_count := 1, name := some "s" })),
      (Key.inode 2, Val.inode (Inode.Directory
        { subdirInode with name := some "c" })),
      (Key.inode 3, Val.inode (Inode.File
        { size := 100, nlink := 1, mode := 0o644, uid := 0, gid := 0 })),
      (Key.chunk 3 0, Val.chunk (List.replicate 100 1)),
      (Key.dirEntry 0 "s", Val.dirEntry 1 3),
      (Key.dirScan 0 3, Val.dirScan 1 "s"),
      (Key.dirEntry 0 "c", Val.dirEntry 2 4),
      (Key.dirScan 0 4, Val.dirScan 2 "c"),
      (Key.dirCookie 0, Val.counter 5),
      (Key.dirEntry 1 "a", Val.dirEntry 3 3),
      (Key.dirScan 1 3, Val.dirScan 3 "a"),
      (Key.dirCookie 1, Val.counter 4),
      (Key.systemCounter, Val.counter 4)],
    next_inode_id := 4,
    registry := DatasetRegistry.new_with_root 0 1000 5 }

/-- Deep-cloning directory `s` (inode 1) into `c` (inode 2). -/
def cloneRun : Except FsError SnapEff :=
  clone_directory_deep 10 { st := cloneS0, writes := [] } 1 2

/-- The KV state after the deep clone. -/
def cloneFinalKv : KV :=
  match cloneRun with
  | .ok e => e.st.kv
  | .error _ => []

/-- The checker walk over the post-clone state. -/
def cloneWalk : WalkAcc := walk_directory_tree cloneFinalKv 10 ROOT_INODE_ID emptyWalkAcc

/-- The missing-chunk errors the checker reports on the post-clone state. -/
def cloneChunkErrors : List ConsistencyError :=
  verify_file_chunks cloneFinalKv cloneWalk.inode_refs

/-- A sample inode for the cache-timing scenario. -/
def c2Inode : Inode := Inode.File { size := 7, nlink := 1, mode := 0o644, uid := 0, gid := 0 }

/-- An inode store with empty database and cold cache. -/
def c2Store0 : InodeStoreModel :=
  { store := [], next_id := 1, metadata_cache := { inodes := [] } }

/-- A source dataset for the snapshot-readonly scenario. -/
def c5Source : Dataset := Dataset.new 1 "source" 11 100 1000 false

/-- A reader handle over an empty database. -/
def readerDb : EncryptedDb :=
  { read_only := true, store := [], key_cache := [], encryptor := zstdManager }

/-- Whether the snapshot run succeeded. -/
def snapIsOk : Bool :=
  match snapRun with
  | .ok _ => true
  | .error _ => false

/-- Creating a snapshot through the RPC entry point with the `readonly` field
omitted: the server defaults it to `false`. -/
def c5Run : Except FsError (Dataset × SnapEff) :=
  create_snapshot snapS0 0 "rw-snap" 2000 (rpc_create_snapshot_readonly none) 7

/-- The dataset record returned by that run. -/
def c5Dataset : Dataset :=
  match c5Run with
  | .ok out => out.1
  | .error _ => Dataset.new 0 "" 0 0 0 true

/-! ## Helper lemmas -/

/-- Looking up a freshly inserted key returns the inserted value. -/
theorem alist_get_put_self [DecidableEq α] (m : List (α × β)) (k : α) (v : β) :
    alist_get (alist_put m k v) k = some v := by
  unfold alist_get alist_put
  rw [List.find?_cons_of_pos _ (by simp)]
  rfl

/-- The little-endian length prefix is decoded back to the length for `u32`
values. -/
theorem u32_le_val_u32_le (n : Nat) (h : n < 2^32) : u32_le_val (u32_le n) = n := by
  simp only [u32_le, u32_le_val]
  omega

/-- The length prefix of a small LZ4 value is never the Zstd magic. -/
theorem u32_le_ne_zstd_magic (n : Nat) (h : n ≤ CHUNK_SIZE) :
    u32_le n ≠ ZSTD_MAGIC := by
  simp only [u32_le, ZSTD_MAGIC, CHUNK_SIZE] at *
  intro he
  have h4 : n / 2^24 % 256 = 0xFD := by
    simpa using congrArg (fun l => l.get? 3) he
  omega

/-- Membership is unchanged by consecutive deduplication. -/
theorem mem_dedup_consecutive (l : List Nat) (x : Nat) :
    x ∈ dedup_consecutive l ↔ x ∈ l := by
  induction l with
  | nil => simp [dedup_consecutive]
  | cons a tl ih =>
    cases tl with
    | nil => simp [dedup_consecutive]
    | cons b rest =>
      by_cases hab : a = b
      · rw [dedup_consecutive, if_pos hab, ih]
        subst hab
        simp [List.mem_cons]
      · rw [dedup_consecutive, if_neg hab]
        simp only [List.mem_cons] at ih ⊢
        rw [ih]

/-- Deduplicating a `≤`-sorted list yields a `<`-sorted list. -/
theorem sorted_lt_dedup_consecutive (l : List Nat) (h : l.Sorted (· ≤ ·)) :
    (dedup_consecutive l).Sorted (· < ·) := by
  induction l with
  | nil => simp [dedup_consecutive]
  | cons a tl ih =>
    cases tl with
    | nil => simp [dedup_consecutive]
    | cons b rest =>
      rw [List.sorted_cons] at h
      by_cases hab : a = b
      · rw [dedup_consecutive, if_pos hab]
        exact ih h.2
      · rw [dedup_consecutive, if_neg hab, List.sorted_cons]
        refine ⟨?_, ih h.2⟩
        intro x hx
        have hx2 : x ∈ b :: rest := (mem_dedup_consecutive _ x).mp hx
        have hab2 : a ≤ b := h.1 b (List.mem_cons_self b rest)
        have h2 := h.2
        rw [List.sorted_cons] at h2
        rcases List.mem_cons.mp hx2 with hxb | hxrest
        · omega
        · have : b ≤ x := h2.1 x hxrest
          omega

/-- In a strictly sorted list, smaller members come first. -/
theorem indexOf_lt_of_sorted_lt (l : List Nat) (h : l.Sorted (· < ·))
    (a b : Nat) (ha : a ∈ l) (hb : b ∈ l) (hab : a < b) :
    l.indexOf a < l.indexOf b := by
  induction l with
  | nil => cases ha
  | cons c tl ih =>
    rw [List.sorted_cons] at h
    by_cases hac : c = a
    · subst hac
      rw [List.indexOf_cons_self]
      have hb2 : b ∈ tl := by
        rcases List.mem_cons.mp hb with h1 | h1
        · exact absurd h1 (by omega)
        · exact h1
      rw [List.indexOf_cons_ne _ (by omega)]
      omega
    · have ha2 : a ∈ tl := by
        rcases List.mem_cons.mp ha with h1 | h1
        · exact absurd h1.symm hac
        · exact h1
      have hca : c < a := h.1 a ha2
      have hb2 : b ∈ tl := by
        rcases List.mem_cons.mp hb with h1 | h1
        · exact absurd h1 (by omega)
        · exact h1
      rw [List.indexOf_cons_ne _ (by omega)]
      rw [List.indexOf_cons_ne _ (by omega)]
      have := ih h.2 ha2 hb2
      omega

/-! ## Claims -/

/-- C8: `acquire_multiple_write` locks exactly one lock per distinct input
id, in strictly increasing id order (the input sorted and deduplicated);
consequently any two multi-lock acquisitions order their common locks
identically, so multi-lock operations cannot deadlock against each other. -/
theorem acquire_multiple_write_sorted (ids : List Nat) :
    (acquire_multiple_write ids).Sorted (· < ·)
    ∧ (∀ x, x ∈ acquire_multiple_write ids ↔ x ∈ ids)
    ∧ (∀ a b, a ∈ ids → b ∈ ids → a < b →
        (acquire_multiple_write ids).indexOf a < (acquire_multiple_write ids).indexOf b) := by
  have hsorted : (acquire_multiple_write ids).Sorted (· < ·) :=
    sorted_lt_dedup_consecutive _ (List.sorted_insertionSort _ ids)
  have hmem : ∀ x, x ∈ acquire_multiple_write ids ↔ x ∈ ids := by
    intro x
    unfold acquire_multiple_write
    rw [mem_dedup_consecutive]
    exact (List.perm_insertionSort _ ids).mem_iff
  refine ⟨hsorted, hmem, ?_⟩
  intro a b ha hb hab
  exact indexOf_lt_of_sorted_lt _ hsorted a b ((hmem a).mpr ha) ((hmem b).mpr hb) hab

/-- Witness for C8 at a concrete input. -/
theorem acquire_multiple_write_sorted_witness :
    (acquire_multiple_write [3, 1, 2, 1]).indexOf 1
      < (acquire_multiple_write [3, 1, 2, 1]).indexOf 3 :=
  (acquire_multiple_write_sorted [3, 1, 2, 1]).2.2 1 3 (by decide) (by decide)
    (by decide)

/-- C10: `is_valid_inode_id` returns `false` exactly for 0 and for the ids
whose low 32 bits equal `0x00000001` while the high 32 bits lie strictly
between 0 and 1000; every other `u64` is accepted — in particular ids just
above `MAX_NORMAL_INODE_ID` and the virtual `SNAPSHOTS_ROOT_INODE`, while
`0x25E00000001` (a value a sufficiently advanced allocator counter can reach)
and the root id 0 are rejected. -/
theorem is_valid_inode_id_characterization :
    (∀ id : Nat, id < 2^64 →
      (is_valid_inode_id id = false ↔
        id = 0 ∨ (id % 2^32 = 1 ∧ 0 < id / 2^32 ∧ id / 2^32 < 1000)))
    ∧ is_valid_inode_id 0 = false
    ∧ is_valid_inode_id (MAX_NORMAL_INODE_ID + 1) = true
    ∧ is_valid_inode_id 0x25E00000001 = false
    ∧ is_valid_inode_id SNAPSHOTS_ROOT_INODE = true := by
  refine ⟨?_, by decide, by decide, by decide, by decide⟩
  intro id h
  unfold is_valid_inode_id
  by_cases h0 : id = 0
  · subst h0
    simp
  · rw [if_neg h0]
    have hm : id / 2^32 % 2^32 = id / 2^32 := by omega
    by_cases hc : id % 2^32 = 1 ∧ 0 < id / 2^32 % 2^32 ∧ id / 2^32 % 2^32 < 1000
    · rw [if_pos hc]
      rw [hm] at hc
      constructor
      · intro _
        exact Or.inr hc
      · intro _
        rfl
    · rw [if_neg hc]
      rw [hm] at hc
      constructor
      · intro htf
        exact absurd htf (by decide)
      · intro h1
        rcases h1 with h1 | h1
        · exact absurd h1 h0
        · exact absurd h1 hc

/-- Witness for C10 at a concrete input. -/
theorem is_valid_inode_id_characterization_witness :
    is_valid_inode_id 3 = false ↔
      (3 = 0 ∨ (3 % 2^32 = 1 ∧ 0 < 3 / 2^32 ∧ 3 / 2^32 < 1000)) :=
  is_valid_inode_id_characterization.1 3 (by norm_num)

/-- Decrypting a well-formed nonce-prefixed record reduces to decrypting the
ciphertext and post-processing. -/
theorem decrypt_of_enc (c : Cipher) (r : CompressionConfig)
    (key nonce data : List Byte) (hn : nonce.length = NONCE_SIZE) :
    EncryptionManager.decrypt ⟨c, r⟩ key (nonce ++ c.enc nonce data) =
      (if is_chunk_key key then
        if 4 ≤ data.length ∧ data.take 4 = ZSTD_MAGIC then
          zstd_decompress data CHUNK_SIZE
        else lz4_decompress_size_prepended data
      else some data) := by
  unfold EncryptionManager.decrypt
  rw [if_neg (by simp only [List.length_append, hn, NONCE_SIZE]; omega)]
  rw [List.take_left' hn, List.drop_left' hn]
  simp only [c.dec_enc]

/-- C7 (amended): decrypt inverts encrypt for every key, every 24-byte nonce
and every plaintext that fits in a chunk (at most `CHUNK_SIZE` bytes when the
key is a chunk key; unbounded otherwise), across compression configurations:
the writer's algorithm `w` and the reader's algorithm `r` are arbitrary, the
decompressor being selected by the Zstd magic on the first four decrypted
bytes.  Values under non-chunk keys are never compressed. -/
theorem encrypt_decrypt_roundtrip (c : Cipher) (w r : CompressionConfig)
    (nonce key p : List Byte) (hn : nonce.length = NONCE_SIZE)
    (hp : is_chunk_key key = true → p.length ≤ CHUNK_SIZE) :
    EncryptionManager.decrypt ⟨c, r⟩ key
      (EncryptionManager.encrypt ⟨c, w⟩ nonce key p) = some p := by
  by_cases hck : is_chunk_key key = true
  · have hpl : p.length ≤ CHUNK_SIZE := hp hck
    have hp32 : p.length < 2^32 := by
      have : CHUNK_SIZE < 2^32 := by norm_num [CHUNK_SIZE]
      omega
    cases w with
    | Lz4 =>
      have henc : EncryptionManager.encrypt ⟨c, CompressionConfig.Lz4⟩ nonce key p
          = nonce ++ c.enc nonce (lz4_compress_prepend_size p) := by
        unfold EncryptionManager.encrypt
        rw [if_pos hck]
      rw [henc, decrypt_of_enc c r key nonce _ hn, if_pos hck]
      have htake : (lz4_compress_prepend_size p).take 4 = u32_le p.length := by
        unfold lz4_compress_prepend_size
        exact List.take_left' (by simp [u32_le])
      have hdrop : (lz4_compress_prepend_size p).drop 4 = p := by
        unfold lz4_compress_prepend_size
        exact List.drop_left' (by simp [u32_le])
      rw [if_neg ?nomagic]
      case nomagic =>
        intro hcond
        rw [htake] at hcond
        exact u32_le_ne_zstd_magic p.length hpl hcond.2
      unfold lz4_decompress_size_prepended
      rw [if_neg (by simp [lz4_compress_prepend_size, u32_le])]
      rw [hdrop, htake, u32_le_val_u32_le p.length hp32]
      rw [if_pos rfl]
    | Zstd lvl =>
      have henc : EncryptionManager.encrypt ⟨c, CompressionConfig.Zstd lvl⟩ nonce key p
          = nonce ++ c.enc nonce (ZSTD_MAGIC ++ p) := by
        unfold EncryptionManager.encrypt
        rw [if_pos hck]
        rfl
      rw [henc, decrypt_of_enc c r key nonce _ hn, if_pos hck]
      have htake : (ZSTD_MAGIC ++ p).take 4 = ZSTD_MAGIC :=
        List.take_left' (by simp [ZSTD_MAGIC])
      rw [if_pos ⟨by simp [ZSTD_MAGIC], htake⟩]
      unfold zstd_decompress
      rw [if_pos htake, List.drop_left' (show ZSTD_MAGIC.length = 4 by simp [ZSTD_MAGIC])]
      rw [if_pos hpl]
  · have henc : EncryptionManager.encrypt ⟨c, w⟩ nonce key p
        = nonce ++ c.enc nonce p := by
      unfold EncryptionManager.encrypt
      rw [if_neg hck]
    rw [henc, decrypt_of_enc c r key nonce _ hn, if_neg hck]


/-- Witness for C7: a 3-byte chunk value written under LZ4 is read back by a
Zstd-configured manager. -/
theorem encrypt_decrypt_roundtrip_witness :
    EncryptionManager.decrypt ⟨idCipher, CompressionConfig.Zstd 3⟩ sampleChunkKey
      (EncryptionManager.encrypt ⟨idCipher, CompressionConfig.Lz4⟩ zeroNonce
        sampleChunkKey [1, 2, 3]) = some [1, 2, 3] :=
  encrypt_decrypt_roundtrip idCipher CompressionConfig.Lz4 (CompressionConfig.Zstd 3)
    zeroNonce sampleChunkKey [1, 2, 3] (by decide) (by decide)

/-- Decrypting a Zstd-written chunk value larger than `CHUNK_SIZE` fails:
`zstd::bulk::decompress` is called with capacity `CHUNK_SIZE` and the payload
exceeds it. -/
theorem zstd_written_oversized_fails (c : Cipher) (lvl : Int) (r : CompressionConfig)
    (nonce key p : List Byte) (hn : nonce.length = NONCE_SIZE)
    (hck : is_chunk_key key = true) (hp : CHUNK_SIZE < p.length) :
    EncryptionManager.decrypt ⟨c, r⟩ key
      (EncryptionManager.encrypt ⟨c, CompressionConfig.Zstd lvl⟩ nonce key p) = none := by
  have henc : EncryptionManager.encrypt ⟨c, CompressionConfig.Zstd lvl⟩ nonce key p
      = nonce ++ c.enc nonce (ZSTD_MAGIC ++ p) := by
    unfold EncryptionManager.encrypt
    rw [if_pos hck]
    rfl
  rw [henc, decrypt_of_enc c r key nonce _ hn, if_pos hck]
  have htake : (ZSTD_MAGIC ++ p).take 4 = ZSTD_MAGIC :=
    List.take_left' (by simp [ZSTD_MAGIC])
  rw [if_pos ⟨by simp [ZSTD_MAGIC], htake⟩]
  unfold zstd_decompress
  rw [if_pos htake, List.drop_left' (show ZSTD_MAGIC.length = 4 by simp [ZSTD_MAGIC])]
  rw [if_neg (by omega)]

/-- C7 counterexample: for a chunk value one byte larger than `CHUNK_SIZE`,
the Zstd-configured round trip fails, so the claim's unrestricted
quantification over plaintexts is false at this concrete input. -/
theorem zstd_oversized_roundtrip_fails :
    EncryptionManager.decrypt zstdManager sampleChunkKey
      (EncryptionManager.encrypt zstdManager zeroNonce sampleChunkKey oversizedPlain)
      ≠ some oversizedPlain := by
  intro hcontra
  have h : EncryptionManager.decrypt zstdManager sampleChunkKey
      (EncryptionManager.encrypt zstdManager zeroNonce sampleChunkKey oversizedPlain)
      = none :=
    zstd_written_oversized_fails idCipher 3 (CompressionConfig.Zstd 3) zeroNonce
      sampleChunkKey oversizedPlain (by decide) (by decide)
      (by simp only [oversizedPlain, List.length_replicate]; omega)
  rw [h] at hcontra
  exact Option.noConfusion hcontra

/-- C9: on a read-only (reader) handle, `get_bytes` neither consults nor
populates the key cache for any key (the result is independent of the cache
contents and the state is returned unchanged), and every mutating entry
point — `write_with_options`, `write_raw_batch`, `put_with_options`,
`flush`, `new_transaction` — returns `ReadOnlyFilesystem` with the store and
cache untouched. -/
theorem reader_handle_isolated (db : EncryptedDb) (h : db.read_only = true) :
    (∀ key, (db.get_bytes key).2 = db
      ∧ (db.get_bytes key).1 = (EncryptedDb.get_bytes { db with key_cache := [] } key).1)
    ∧ (∀ txn nonce, db.write_with_options txn nonce
        = (Except.error FsError.ReadOnlyFilesystem, db))
    ∧ (∀ batch pending deleted, db.write_raw_batch batch pending deleted
        = (Except.error FsError.ReadOnlyFilesystem, db))
    ∧ (∀ key value nonce, db.put_with_options key value nonce
        = (Except.error FsError.ReadOnlyFilesystem, db))
    ∧ db.flush = (Except.error FsError.ReadOnlyFilesystem, db)
    ∧ db.new_transaction = Except.error FsError.ReadOnlyFilesystem := by
  refine ⟨?_, ?_, ?_, ?_, ?_, ?_⟩
  · intro key
    cases hx : alist_get db.store key with
    | none =>
      constructor <;> simp [EncryptedDb.get_bytes, h, hx]
    | some enc =>
      cases hd : db.encryptor.decrypt key enc with
      | none => constructor <;> simp [EncryptedDb.get_bytes, h, hx, hd]
      | some dec => constructor <;> simp [EncryptedDb.get_bytes, h, hx, hd]
  · intro txn nonce
    simp [EncryptedDb.write_with_options, h]
  · intro batch pending deleted
    simp [EncryptedDb.write_raw_batch, h]
  · intro key value nonce
    simp [EncryptedDb.put_with_options, h]
  · simp [EncryptedDb.flush, h]
  · simp [EncryptedDb.new_transaction, h]

/-- Witness for C9 at a concrete reader handle. -/
theorem reader_handle_isolated_witness :
    EncryptedDb.flush readerDb = (Except.error FsError.ReadOnlyFilesystem, readerDb) :=
  (reader_handle_isolated readerDb rfl).2.2.2.2.1

/-- C2 counterexample: `InodeStore::save` on a cold cache and an empty,
never-committed transaction already makes the inode visible through the
metadata cache, while the committed store is unchanged — the new value is
cache-visible before the transaction commits. -/
theorem inode_save_cache_visible_pre_commit :
    ((InodeStore.save c2Store0 [] 5 c2Inode).2.metadata_cache.get_inode 5
      = some (some c2Inode))
    ∧ (InodeStore.save c2Store0 [] 5 c2Inode).2.store = c2Store0.store := by
  decide

/-- C2 (amended): `InodeStore::save` appends the inode write to the
transaction and immediately inserts the inode into the metadata cache — the
cache update happens at build time, before commit; only the store write is
deferred to commit, which applies exactly the pending puts. -/
theorem inode_save_updates_cache_immediately (s : InodeStoreModel) (txn : Txn)
    (id : Nat) (ino : Inode) :
    (InodeStore.save s txn id ino).2.metadata_cache.get_inode id = some (some ino)
    ∧ (InodeStore.save s txn id ino).2.store = s.store
    ∧ (InodeStore.save s txn id ino).1 = txn ++ [(Key.inode id, Val.inode ino)]
    ∧ (commitTxn (InodeStore.save s txn id ino).2 (InodeStore.save s txn id ino).1).store
        = applyWrites s.store (txn ++ [(Key.inode id, Val.inode ino)]) := by
  refine ⟨?_, rfl, rfl, rfl⟩
  unfold InodeStore.save MetadataCache.put_inode MetadataCache.get_inode
  exact alist_get_put_self _ _ _

/-- C5 counterexample: creating a snapshot through the RPC entry point with
the `readonly` field omitted yields a dataset with `is_snapshot = true` but
`is_readonly = false` — the claim that every snapshot is read-only is false. -/
theorem rpc_snapshot_default_readwrite :
    c5Dataset.is_snapshot = true ∧ c5Dataset.is_readonly = false := by
  decide

/-- C5 (amended): every dataset built by `Dataset::new_snapshot` has
`is_snapshot = true`, and its `is_readonly` equals the caller-supplied flag;
the RPC server defaults an omitted `readonly` field to `false`, so such
snapshots are read-write. -/
theorem new_snapshot_readonly_flag :
    (∀ (id : Nat) (name : String) (uuid : Nat) (source : Dataset)
        (root created : Nat) (ro : Bool),
      (Dataset.new_snapshot id name uuid source root created ro).is_snapshot = true
      ∧ (Dataset.new_snapshot id name uuid source root created ro).is_readonly = ro)
    ∧ rpc_create_snapshot_readonly none = false :=
  ⟨fun _ _ _ _ _ _ _ => ⟨rfl, rfl⟩, rfl⟩

/-- C1 counterexample: in the snapshot scenario, the state persisted after
the first of `create_snapshot`'s writes is observable and is neither the
initial state (the `/snapshots` inode now exists) nor the final state (the
dataset registry is still absent) — the operation is not one atomic batch. -/
theorem create_snapshot_intermediate_state_observable :
    kvGet snapS0.kv (Key.inode SNAPSHOTS_ROOT_INODE) = none
    ∧ kvGet snapCrash1 (Key.inode SNAPSHOTS_ROOT_INODE) ≠ none
    ∧ kvGet snapCrash1 Key.datasetRegistry = none
    ∧ kvGet snapFinalKv Key.datasetRegistry ≠ none := by
  decide

/-- C1 (amended): `create_snapshot` persists its changes as a sequence of
individually-committed puts — 18 separate KV writes in the snapshot
scenario, whose sequential application is exactly the final state — rather
than as one atomic batch, so crash points between writes expose intermediate
states. -/
theorem create_snapshot_write_trace :
    snapIsOk = true ∧ snapWrites.length = 18 ∧ snapFinalKv = snapReplayedKv := by
  decide

/-- C3: after `create_snapshot` in the snapshot scenario, the `/snapshots`
virtual inode `SNAPSHOTS_ROOT_INODE` is live in the inode table while the
persisted counter is still 2, so the global-counter invariant is violated
and the repository's own consistency checker reports `InodeCounterTooLow`. -/
theorem snapshot_breaks_inode_counter_invariant :
    verify_inode_counter snapFinalKv
      = Except.ok [ConsistencyError.InodeCounterTooLow 2 SNAPSHOTS_ROOT_INODE]
    ∧ (kvGet snapFinalKv (Key.inode SNAPSHOTS_ROOT_INODE)).isSome = true
    ∧ kvGet snapFinalKv Key.systemCounter = some (Val.counter 2) := by
  decide

/-- C4: after `create_snapshot` in the snapshot scenario, the shared
subdirectory `d` (inode 1) has `nlink = 3` yet no subdirectories, so the
directory-nlink invariant `nlink = 2 + subdirs` is violated and the
repository's own consistency checker reports `DirectoryNlinkMismatch`. -/
theorem snapshot_breaks_directory_nlink_invariant :
    getInode snapFinalKv 1 = Except.ok (Inode.Directory { subdirInode with nlink := 3 })
    ∧ dirScanEntries snapFinalKv 1 = []
    ∧ ConsistencyError.DirectoryNlinkMismatch 1 3 2 0 ∈ snapNlinkErrors := by
  decide

/-- C6: after `clone_directory_deep` in the clone scenario, the cloned file
(inode 4, size 100, cloned from inode 3 and linked in the destination) has
no `Chunk(4, 0)` record at all — the clone writes no chunk keys — so reading
the clone does not return the source data, and the repository's own
consistency checker reports `MissingChunks`. -/
theorem deep_clone_missing_chunks :
    kvGet cloneFinalKv (Key.inode 4)
      = some (Val.inode (Inode.File { size := 100, nlink := 1, mode := 0o644, uid := 0, gid := 0 }))
    ∧ kvGet cloneFinalKv (Key.dirEntry 2 "a") = some (Val.dirEntry 4 3)
    ∧ kvGet cloneFinalKv (Key.chunk 4 0) = none
    ∧ kvGet cloneFinalKv (Key.chunk 3 0) = some (Val.chunk (List.replicate 100 1))
    ∧ ConsistencyError.MissingChunks 4 100 1 0 ∈ cloneChunkErrors := by
  decide
